import Mathlib

/-!
# relaunchd: socket activation (socket.c) and configuration directory (options.cc)

A shallow embedding of `src/socket.c` and `src/src/options.cc`.

System calls are modelled by their return values, supplied by the caller of
each embedded function, and by their effect on a small kernel state: the set
of open descriptors and the set of kqueue registrations.
-/

namespace Relaunchd

/-! ## Constants of the system headers -/

/-- Value of `SOCK_STREAM` in `<sys/socket.h>`. -/
def SOCK_STREAM : Int := 1

/-- Value of `SOCK_DGRAM` in `<sys/socket.h>`. -/
def SOCK_DGRAM : Int := 2

/-- Value of `PF_INET` in `<sys/socket.h>`. -/
def PF_INET : Int := 2

/-- Value of `INADDR_ANY` in `<netinet/in.h>`. -/
def INADDR_ANY : Int := 0

/-- Value of `EVFILT_READ` in `<sys/event.h>`. -/
def EVFILT_READ : Int := -1

/-- Value of `EV_ADD` in `<sys/event.h>`. -/
def EV_ADD : Int := 1

/-- Value of `EINTR` in `<errno.h>`. -/
def EINTR : Int := 4

/-- Smallest value of a C `int`. -/
def INT_MIN : Int := -2147483648

/-- Largest value of a C `int`. -/
def INT_MAX : Int := 2147483647

/-! ## Data model -/

/-- The `struct job_manifest_socket` of `socket.h`, with the fields that
`socket.c` reads, writes or frees. A C string pointer is an `Option String`,
`none` being `NULL`; the string has no NUL character inside. -/
structure job_manifest_socket where
  label : Option String
  sd : Int
  port : Int
  sock_type : Int
  sock_passive : Bool
  sock_family : Int
  sock_node_name : Option String
  sock_service_name : Option String
  sock_path_name : Option String
  secure_socket_with_key : Option String
  multicast_group : Option String
  deriving DecidableEq, Repr

/-- One registration on a kqueue: the queue descriptor, the watched
descriptor and the filter. -/
structure kevent_reg where
  kq : Int
  ident : Int
  filter : Int
  deriving DecidableEq, Repr

/-- The two static variables of `socket.c` together with the kernel state the
module acts on. -/
structure World where
  parent_kqfd : Int
  socket_kqfd : Int
  open_fds : List Int
  regs : List kevent_reg
  deriving DecidableEq, Repr

/-- A system call as issued by the module, with the arguments that matter. -/
inductive Syscall where
  | socket (family type protocol : Int)
  | bind (sd sin_family sin_addr : Int) (sin_port : Nat)
  | listen (sd backlog : Int)
  | kevent_add (kq ident filter flags : Int)
  | kqueue
  | close (sd : Int)
  deriving DecidableEq, Repr

/-- Return values of the four system calls of one `job_manifest_socket_open`
call; a call that is not reached ignores its value. -/
structure OpenOutcome where
  socket_rv : Int
  bind_rv : Int
  listen_rv : Int
  kevent_rv : Int
  deriving DecidableEq, Repr

/-- What `job_manifest_socket_open` leaves behind: its return value, the
descriptor structure, the world and the system calls it made, in order. -/
structure OpenResult where
  rv : Int
  jms : job_manifest_socket
  world : World
  calls : List Syscall
  deriving DecidableEq, Repr

/-! ## Kernel effects -/

/-- Effect of a descriptor-creating call (`socket`, `kqueue`) that returned
`fd`: a non-negative `fd` is now open. -/
def World.fd_created (w : World) (fd : Int) : World :=
  if fd < 0 then w else { w with open_fds := fd :: w.open_fds }

/-- Effect of `close(fd)`: the descriptor is no longer open and the kernel
drops every registration that watches it. -/
def World.fd_closed (w : World) (fd : Int) : World :=
  { w with open_fds := w.open_fds.filter (fun x => x ≠ fd),
           regs := w.regs.filter (fun r => r.ident ≠ fd) }

/-- Effect of a `kevent` call with one `EV_ADD` change that returned `rv`:
on success the registration exists (once). -/
def World.kevent_added (w : World) (rv : Int) (r : kevent_reg) : World :=
  if rv < 0 then w
  else if r ∈ w.regs then w
  else { w with regs := r :: w.regs }

/-- The descriptor `sd` is registered for read-readiness on the activation
queue. -/
def World.on_activation_queue (w : World) (sd : Int) : Prop :=
  (⟨w.socket_kqfd, sd, EVFILT_READ⟩ : kevent_reg) ∈ w.regs

instance (w : World) (sd : Int) : Decidable (w.on_activation_queue sd) := by
  unfold World.on_activation_queue; infer_instance

/-- Kernel consistency: only open descriptors are watched, and descriptors
are non-negative. -/
def World.wf (w : World) : Prop :=
  (∀ r ∈ w.regs, r.ident ∈ w.open_fds) ∧ (∀ fd ∈ w.open_fds, 0 ≤ fd)

instance (w : World) : Decidable w.wf := by
  unfold World.wf; infer_instance

/-! ## Byte order -/

/-- Exchange the two bytes of a 16-bit value. -/
def bswap16 (x : Nat) : Nat := (x % 256) * 256 + (x / 256) % 256

/-- The function `htons`: the argument is converted to `uint16_t`, then put in
network byte order; `le` says that the host is little-endian. -/
def htons (le : Bool) (x : Int) : Nat :=
  if le then bswap16 (x % 65536).toNat else (x % 65536).toNat

/-- The function `ntohs`: the argument is converted to `uint16_t`, then put in
host byte order. -/
def ntohs (le : Bool) (x : Int) : Nat :=
  if le then bswap16 (x % 65536).toNat else (x % 65536).toNat

/-! ## socket.c -/

/-- The function `job_manifest_socket_new` (socket.c:33-47). `calloc_ok` tells
whether `calloc` returned memory; the result is `none` for `NULL`. -/
def job_manifest_socket_new (calloc_ok : Bool) : Option job_manifest_socket :=
  if !calloc_ok then none
  else some
    { label := none, sd := -1, port := 0, sock_type := SOCK_STREAM,
      sock_passive := true, sock_family := PF_INET, sock_node_name := none,
      sock_service_name := none, sock_path_name := none,
      secure_socket_with_key := none, multicast_group := none }

/-- The guard of socket.c:68-69. -/
def open_unsupported (jms : job_manifest_socket) : Bool :=
  jms.sock_type != SOCK_STREAM || !jms.sock_passive
    || jms.sock_family != PF_INET || jms.sock_node_name.isSome

/-- The label `err_out` of `job_manifest_socket_open` (socket.c:106-108). -/
def open_err_out (sd : Int) (jms : job_manifest_socket) (w : World)
    (calls : List Syscall) : OpenResult :=
  if sd ≥ 0 then ⟨-1, jms, w.fd_closed sd, calls ++ [Syscall.close sd]⟩
  else ⟨-1, jms, w, calls⟩

/-- The function `job_manifest_socket_open` (socket.c:62-109). -/
def job_manifest_socket_open (le : Bool) (o : OpenOutcome)
    (jms : job_manifest_socket) (w : World) : OpenResult :=
  if open_unsupported jms then
    ⟨-1, jms, w, []⟩
  else
    let sd := o.socket_rv
    let c1 := [Syscall.socket jms.sock_family jms.sock_type 0]
    let w1 := w.fd_created sd
    if sd < 0 then open_err_out sd jms w1 c1
    else
      let sin_port := htons le jms.port
      let c2 := c1 ++ [Syscall.bind sd jms.sock_family INADDR_ANY sin_port]
      if o.bind_rv < 0 then open_err_out sd jms w1 c2
      else
        let c3 := c2 ++ [Syscall.listen sd 500]
        if o.listen_rv < 0 then open_err_out sd jms w1 c3
        else
          let c4 := c3 ++ [Syscall.kevent_add w.socket_kqfd sd EVFILT_READ EV_ADD]
          let w2 := w1.kevent_added o.kevent_rv ⟨w.socket_kqfd, sd, EVFILT_READ⟩
          if o.kevent_rv < 0 then open_err_out sd jms w2 c4
          else ⟨0, { jms with sd := sd }, w2, c4⟩

/-- A run of `job_manifest_socket_open` calls on one descriptor, one outcome
record per call: the return values in order, and the final descriptor and
world. -/
def open_all (le : Bool) :
    List OpenOutcome → job_manifest_socket → World → List Int × job_manifest_socket × World
  | [], jms, w => ([], jms, w)
  | o :: os, jms, w =>
    let r := job_manifest_socket_open le o jms w
    let rest := open_all le os r.jms r.world
    (r.rv :: rest.1, rest.2)

/-- The kernel hands out only descriptors that are not open: every `socket`
return value of the run is fresh in the world it is returned in. -/
def outcomes_fresh (le : Bool) :
    List OpenOutcome → job_manifest_socket → World → Bool
  | [], _, _ => true
  | o :: os, jms, w =>
    decide (o.socket_rv ∉ w.open_fds) &&
      outcomes_fresh le os (job_manifest_socket_open le o jms w).jms
        (job_manifest_socket_open le o jms w).world

/-- The invariant kept by `job_manifest_socket_open`: the kernel state is
consistent and a non-negative `sd` is registered on the activation queue. -/
def sd_inv (jms : job_manifest_socket) (w : World) : Prop :=
  w.wf ∧ (0 ≤ jms.sd → w.on_activation_queue jms.sd)

/-- The `struct servent` of `<netdb.h>`; only `s_port` is read. It holds the
port in network byte order. -/
structure servent where
  s_port : Int
  deriving DecidableEq, Repr

/-- The function `isspace` in the C locale. -/
def isspace (c : Char) : Bool := c.toNat = 32 || (9 ≤ c.toNat && c.toNat ≤ 13)

/-- The function `isdigit`. -/
def isdigit (c : Char) : Bool := 48 ≤ c.toNat && c.toNat ≤ 57

/-- Input with its leading white space removed. -/
def skip_space : List Char → List Char
  | [] => []
  | c :: cs => if isspace c then skip_space cs else c :: cs

/-- Value of the longest run of decimal digits at the head of the input,
continuing from `acc`. -/
def read_digits : List Char → Nat → Nat
  | [], acc => acc
  | c :: cs, acc => if isdigit c then read_digits cs (acc * 10 + (c.toNat - 48)) else acc

/-- Result of matching the directive `%d` against an input. -/
inductive ScanResult where
  | eof
  | mismatch
  | value (n : Int)
  deriving DecidableEq, Repr

/-- Matching of `%d`: white space is skipped, then an optional sign and a
non-empty run of decimal digits are read. -/
def scan_int (s : List Char) : ScanResult :=
  match skip_space s with
  | [] => ScanResult.eof
  | c :: cs =>
    if c.toNat = 45 then
      match cs with
      | [] => ScanResult.mismatch
      | d :: ds => if isdigit d then ScanResult.value (-(read_digits (d :: ds) 0 : Int))
                   else ScanResult.mismatch
    else if c.toNat = 43 then
      match cs with
      | [] => ScanResult.mismatch
      | d :: ds => if isdigit d then ScanResult.value (read_digits (d :: ds) 0 : Int)
                   else ScanResult.mismatch
    else if isdigit c then ScanResult.value (read_digits (c :: cs) 0 : Int)
    else ScanResult.mismatch

/-- Conversion of the matched number as the C library does it: `strtol`
saturates at the range of `long` (64 bits), and the store through `int *`
keeps the low 32 bits. -/
def store_int (n : Int) : Int :=
  let l := max (-9223372036854775808) (min n 9223372036854775807)
  (l + 2147483648) % 4294967296 - 2147483648

/-- The call `sscanf(s, "%d", &dst)`: the return value and the content of
`dst` afterwards, `dst` being its content before. -/
def sscanf_d (s : List Char) (dst : Int) : Int × Int :=
  match scan_int s with
  | ScanResult.eof => (-1, dst)
  | ScanResult.mismatch => (0, dst)
  | ScanResult.value n => (1, store_int n)

/-- Value of a string of decimal digits. -/
def decimal_value (ds : List Char) : Nat :=
  ds.foldl (fun acc c => acc * 10 + (c.toNat - 48)) 0

/-- The words of the claim on `job_manifest_socket_get_port`: the string
begins, after optional white space, with an optionally signed decimal integer
`n`, the digits being taken as far as they go. -/
def begins_with_integer (s : List Char) (n : Int) : Prop :=
  ∃ ws sg ds rest, s = ws ++ sg ++ ds ++ rest
    ∧ (∀ c ∈ ws, isspace c = true)
    ∧ (sg = [] ∨ sg = ['+'] ∨ sg = ['-'])
    ∧ ds ≠ [] ∧ (∀ c ∈ ds, isdigit c = true)
    ∧ (∀ c ∈ rest.head?, isdigit c = false)
    ∧ n = if sg = ['-'] then -(decimal_value ds : Int) else (decimal_value ds : Int)

/-- The function `job_manifest_socket_get_port` (socket.c:114-131).
`getservbyname` is the services database. The result is `none` when
`sock_service_name` is `NULL`, which the function requires its caller to
exclude. -/
def job_manifest_socket_get_port (le : Bool) (getservbyname : String → Option servent)
    (jms : job_manifest_socket) : Option (Int × job_manifest_socket) :=
  match jms.sock_service_name with
  | none => none
  | some name =>
    match getservbyname name with
    | some se => some (0, { jms with port := ntohs le se.s_port })
    | none =>
      let r := sscanf_d name.toList jms.port
      let jms1 := { jms with port := r.2 }
      if r.1 ≠ 1 then some (-1, jms1) else some (0, jms1)

/-- How `setup_socket_activation` ends. -/
inductive SetupResult where
  | returned (w : World) (calls : List Syscall)
  | aborted (w : World) (calls : List Syscall)
  deriving DecidableEq, Repr

/-- The function `setup_socket_activation` (socket.c:133-143); `kqueue_rv` and
`kevent_rv` are the return values of its two system calls. -/
def setup_socket_activation (kqueue_rv kevent_rv : Int) (kqfd : Int) (w : World) :
    SetupResult :=
  let w1 := { w with parent_kqfd := kqfd }
  let w2 := { w1.fd_created kqueue_rv with socket_kqfd := kqueue_rv }
  let c1 := [Syscall.kqueue]
  if w2.socket_kqfd < 0 then SetupResult.aborted w2 c1
  else
    let c2 := c1 ++ [Syscall.kevent_add w2.parent_kqfd w2.socket_kqfd EVFILT_READ EV_ADD]
    let w3 := w2.kevent_added kevent_rv ⟨w2.parent_kqfd, w2.socket_kqfd, EVFILT_READ⟩
    if kevent_rv < 0 then SetupResult.aborted w3 c2
    else SetupResult.returned w3 c2

/-- Outcome of one blocking `kevent(socket_kqfd, NULL, 0, &kev, 1, NULL)`:
with room for one event and no timeout the call returns 1 with an event
(not `< 1`), or -1 with `errno` set (`< 1`). -/
inductive WaitOutcome where
  | event (ident : Int)
  | error (errno : Int)
  deriving DecidableEq, Repr

/-- What `socket_activation_handler` leaves behind: its return value, the
world, and the number of waits it made. -/
structure HandlerResult where
  rv : Int
  world : World
  waits : Nat
  deriving DecidableEq, Repr

/-- The function `socket_activation_handler` (socket.c:145-164), run against
the outcomes of its successive waits. The result is `none` when the outcomes
are used up while the loop is still waiting. The waits pass no change list,
and nothing follows the loop but `return 0`, so the world is handed back as
it was. -/
def socket_activation_handler : List WaitOutcome → World → Option HandlerResult
  | [], _ => none
  | WaitOutcome.error e :: os, w =>
    if e = EINTR then
      (socket_activation_handler os w).map (fun r => { r with waits := r.waits + 1 })
    else some ⟨-1, w, 1⟩
  | WaitOutcome.event _ :: _, w => some ⟨0, w, 1⟩

/-! ## options.cc -/

/-- The function `getConfigDir` (options.cc:24-45); `uid` is the value of
`getuid()` and `getenv` the environment. A thrown `std::runtime_error` is
`Except.error` with its message. -/
def getConfigDir (uid : Nat) (getenv : String → Option String) : Except String String :=
  if uid = 0 then Except.ok "/etc/relaunchd"
  else
    match getenv "XDG_CONFIG_HOME" with
    | some xdg_config_home => Except.ok (xdg_config_home ++ "/relaunchd")
    | none =>
      match getenv "HOME" with
      | some home => Except.ok ((home ++ "/.local/config") ++ "/relaunchd")
      | none => Except.error "No HOME environment variable is set"

/-! ## Manager: job table, `load`, `unload` and process exit

The Manager is not among the sources; the definitions of this section follow
sections 2, 3, 4.2, 4.5 and 7 of the specification.
-/

/-- Modelled from the spec: the states of the Job State Machine (section 4.2);
the declaring header of the Manager is missing. -/
inductive JobState where
  | Loaded
  | Activating
  | Running
  | Stopping
  | Stopped
  | Disabled
  deriving DecidableEq, Repr

/-- Modelled from the spec: the Job Descriptor of section 3 and the manifest
fields of section 6, as the manifest loader hands it to the core; the manifest
sources are missing. `sockets` counts its Socket Descriptors; `disabled` is the
persisted disabled flag. -/
structure JobDescriptor where
  label : String
  program : List String
  run_at_load : Bool
  keep_alive : Bool
  disabled : Bool
  sockets : Nat
  deriving DecidableEq, Repr

/-- Modelled from the spec: the Job Runtime Entry of section 3; the job
sources are missing. `unload_pending` records an `unload` received while the
process was live, to be completed when the process has stopped. -/
structure JobEntry where
  desc : JobDescriptor
  state : JobState
  pid : Option Nat
  last_exit : Option Int
  generation : Nat
  unload_pending : Bool
  deriving DecidableEq, Repr

/-- Modelled from the spec: what `unload` does to one entry (section 4.2),
missing from the sources: a running job is signalled and goes through
`Stopping`, to be removed once stopped; a job without live process is removed,
`none` standing for removal. -/
def unload_entry (label : String) (e : JobEntry) : Option JobEntry :=
  if e.desc.label ≠ label then some e
  else
    match e.state with
    | JobState.Running => some { e with state := JobState.Stopping, unload_pending := true }
    | JobState.Stopping => some { e with unload_pending := true }
    | _ => none

theorem open_unsupported_iff (jms : job_manifest_socket) :
    open_unsupported jms = true ↔
      (jms.sock_type ≠ SOCK_STREAM ∨ jms.sock_passive = false
        ∨ jms.sock_family ≠ PF_INET ∨ jms.sock_node_name ≠ none) := by
  cases hn : jms.sock_node_name <;> cases hp : jms.sock_passive <;>
    simp [open_unsupported, hn, hp]

theorem open_calls_of_supported (le : Bool) (o : OpenOutcome) (jms : job_manifest_socket)
    (w : World) (h : open_unsupported jms = false) :
    (job_manifest_socket_open le o jms w).calls.head?
      = some (Syscall.socket jms.sock_family jms.sock_type 0) := by
  simp only [job_manifest_socket_open, open_err_out, h, Bool.false_eq_true, if_false]
  split_ifs <;> simp

/-- C1: `job_manifest_socket_open` returns -1 having made no system call and
with `sd` unchanged exactly when the type is not stream, or the socket is not
passive, or the family is not INET, or a node name is set; it then leaves the
whole descriptor and the world untouched, and a descriptor in none of these
cases passes the check and reaches the `socket` call. -/
theorem open_rejects_iff_unsupported (le : Bool) (o : OpenOutcome)
    (jms : job_manifest_socket) (w : World) :
    (((job_manifest_socket_open le o jms w).rv = -1
        ∧ (job_manifest_socket_open le o jms w).calls = []
        ∧ (job_manifest_socket_open le o jms w).jms.sd = jms.sd) ↔
      (jms.sock_type ≠ SOCK_STREAM ∨ jms.sock_passive = false
        ∨ jms.sock_family ≠ PF_INET ∨ jms.sock_node_name ≠ none))
    ∧ ((jms.sock_type ≠ SOCK_STREAM ∨ jms.sock_passive = false
        ∨ jms.sock_family ≠ PF_INET ∨ jms.sock_node_name ≠ none) →
        job_manifest_socket_open le o jms w = ⟨-1, jms, w, []⟩)
    ∧ (¬ (jms.sock_type ≠ SOCK_STREAM ∨ jms.sock_passive = false
        ∨ jms.sock_family ≠ PF_INET ∨ jms.sock_node_name ≠ none) →
        (job_manifest_socket_open le o jms w).calls.head?
          = some (Syscall.socket PF_INET SOCK_STREAM 0)) := by
  rw [← open_unsupported_iff]
  have hrej : open_unsupported jms = true →
      job_manifest_socket_open le o jms w = ⟨-1, jms, w, []⟩ := by
    intro h
    simp [job_manifest_socket_open, h]
  have hacc : ¬ open_unsupported jms = true →
      (job_manifest_socket_open le o jms w).calls.head?
        = some (Syscall.socket PF_INET SOCK_STREAM 0) := by
    intro h
    have h0 : open_unsupported jms = false := by simpa using h
    have hc := open_calls_of_supported le o jms w h0
    have hu := (open_unsupported_iff jms).not.mp h
    push_neg at hu
    rw [hc, hu.1, hu.2.2.1]
  refine ⟨⟨?_, ?_⟩, hrej, hacc⟩
  · rintro ⟨_, hc, _⟩
    by_contra h
    have := hacc h
    rw [hc] at this
    simp at this
  · intro h
    rw [hrej h]
    simp

/-- Witness for C1: a datagram descriptor is rejected without any system
call. -/
theorem open_rejects_iff_unsupported_witness :
    job_manifest_socket_open true ⟨5, 0, 0, 0⟩
        ⟨none, -1, 0, SOCK_DGRAM, true, PF_INET, none, none, none, none, none⟩
        ⟨3, 4, [3, 4], [⟨3, 4, EVFILT_READ⟩]⟩
      = ⟨-1, ⟨none, -1, 0, SOCK_DGRAM, true, PF_INET, none, none, none, none, none⟩,
          ⟨3, 4, [3, 4], [⟨3, 4, EVFILT_READ⟩]⟩, []⟩ :=
  (open_rejects_iff_unsupported true ⟨5, 0, 0, 0⟩
      ⟨none, -1, 0, SOCK_DGRAM, true, PF_INET, none, none, none, none, none⟩
      ⟨3, 4, [3, 4], [⟨3, 4, EVFILT_READ⟩]⟩).2.1 (Or.inl (by decide))

/-! ### The wait loop of `socket_activation_handler` -/

theorem handler_world (os : List WaitOutcome) (w : World) (r : HandlerResult)
    (h : socket_activation_handler os w = some r) : r.world = w := by
  induction os generalizing r with
  | nil => simp [socket_activation_handler] at h
  | cons o os ih =>
    cases o with
    | event ident =>
      simp [socket_activation_handler] at h
      rw [← h]
    | error e =>
      simp only [socket_activation_handler] at h
      split_ifs at h with he
      · cases hr : socket_activation_handler os w with
        | none => simp [hr] at h
        | some r0 =>
          simp [hr] at h
          rw [← h]
          exact ih r0 hr
      · simp at h
        rw [← h]

theorem handler_after_interruptions (n : Nat) (ident : Int) (rest : List WaitOutcome)
    (w : World) :
    socket_activation_handler
        (List.replicate n (WaitOutcome.error EINTR) ++ WaitOutcome.event ident :: rest) w
      = some ⟨0, w, n + 1⟩ := by
  induction n with
  | zero => simp [socket_activation_handler]
  | succ k ih =>
    simp [List.replicate_succ, socket_activation_handler, ih]

theorem handler_fails_iff (os : List WaitOutcome) (w : World) :
    (∃ r, socket_activation_handler os w = some r ∧ r.rv = -1) ↔
      ∃ n e rest, e ≠ EINTR ∧
        os = List.replicate n (WaitOutcome.error EINTR) ++ WaitOutcome.error e :: rest := by
  induction os with
  | nil =>
    constructor
    · rintro ⟨r, h, _⟩
      simp [socket_activation_handler] at h
    · rintro ⟨n, e, rest, _, h⟩
      simp at h
  | cons o os ih =>
    cases o with
    | event ident =>
      constructor
      · rintro ⟨r, h, hr⟩
        simp [socket_activation_handler] at h
        rw [← h] at hr
        simp at hr
      · rintro ⟨n, e, rest, _, h⟩
        cases n with
        | zero => simp at h
        | succ k => simp [List.replicate_succ] at h
    | error e =>
      by_cases he : e = EINTR
      · subst he
        constructor
        · rintro ⟨r, h, hr⟩
          simp only [socket_activation_handler, if_true] at h
          cases hr0 : socket_activation_handler os w with
          | none => simp [hr0] at h
          | some r0 =>
            simp [hr0] at h
            have h0 : r0.rv = -1 := by rw [← h] at hr; simpa using hr
            obtain ⟨n, e, rest, hne, hos⟩ := ih.mp ⟨r0, hr0, h0⟩
            exact ⟨n + 1, e, rest, hne, by simp [List.replicate_succ, hos]⟩
        · rintro ⟨n, e, rest, hne, h⟩
          cases n with
          | zero =>
            simp at h
            exact absurd h.1.symm hne
          | succ k =>
            simp [List.replicate_succ] at h
            obtain ⟨r0, hr0, h0⟩ := ih.mpr ⟨k, e, rest, hne, h⟩
            exact ⟨{ r0 with waits := r0.waits + 1 },
              by simp [socket_activation_handler, hr0], h0⟩
      · constructor
        · intro _
          exact ⟨0, e, os, he, by simp⟩
        · intro _
          exact ⟨⟨-1, w, 1⟩, by simp [socket_activation_handler, he], rfl⟩

/-- C3: after any number of waits interrupted by a signal (`EINTR`) followed
by one delivered event, `socket_activation_handler` has retried after each
interruption (one wait per outcome) and returns 0; and it returns -1 exactly
when the first wait that is not interrupted fails with another error. -/
theorem handler_retries_on_eintr :
    (∀ (n : Nat) (ident : Int) (rest : List WaitOutcome) (w : World),
      socket_activation_handler
          (List.replicate n (WaitOutcome.error EINTR) ++ WaitOutcome.event ident :: rest) w
        = some ⟨0, w, n + 1⟩)
    ∧ (∀ (os : List WaitOutcome) (w : World),
      (∃ r, socket_activation_handler os w = some r ∧ r.rv = -1) ↔
        ∃ n e rest, e ≠ EINTR ∧
          os = List.replicate n (WaitOutcome.error EINTR) ++ WaitOutcome.error e :: rest) :=
  ⟨handler_after_interruptions, handler_fails_iff⟩

/-- C2: on a readiness event for socket 5, registered on the activation queue
4, `socket_activation_handler` returns 0 after one wait and hands the world
back as it was: socket 5 is still registered on the activation queue. -/
theorem handler_leaves_socket_registered :
    socket_activation_handler [WaitOutcome.event 5]
        ⟨3, 4, [3, 4, 5], [⟨4, 5, EVFILT_READ⟩, ⟨3, 4, EVFILT_READ⟩]⟩
      = some ⟨0, ⟨3, 4, [3, 4, 5], [⟨4, 5, EVFILT_READ⟩, ⟨3, 4, EVFILT_READ⟩]⟩, 1⟩
    ∧ World.on_activation_queue
        ⟨3, 4, [3, 4, 5], [⟨4, 5, EVFILT_READ⟩, ⟨3, 4, EVFILT_READ⟩]⟩ 5 := by
  decide

/-! ### `setup_socket_activation` -/

/-- C7: `setup_socket_activation` aborts exactly when `kqueue` fails or the
registering `kevent` fails; when it returns, the registrations are the former
ones plus one new registration, on the primary queue it was given, for
read-readiness of the activation queue descriptor. -/
theorem setup_aborts_iff_queue_failure (kqueue_rv kevent_rv kqfd : Int) (w : World)
    (hwf : w.wf) (hfresh : kqueue_rv ∉ w.open_fds) :
    ((∃ w1 c, setup_socket_activation kqueue_rv kevent_rv kqfd w = SetupResult.aborted w1 c)
        ↔ (kqueue_rv < 0 ∨ kevent_rv < 0))
    ∧ (∀ w1 c, setup_socket_activation kqueue_rv kevent_rv kqfd w = SetupResult.returned w1 c →
        w1.regs = ⟨kqfd, kqueue_rv, EVFILT_READ⟩ :: w.regs
        ∧ (⟨kqfd, kqueue_rv, EVFILT_READ⟩ : kevent_reg) ∉ w.regs
        ∧ w1.parent_kqfd = kqfd ∧ w1.socket_kqfd = kqueue_rv ∧ 0 ≤ kqueue_rv) := by
  have hnot : (⟨kqfd, kqueue_rv, EVFILT_READ⟩ : kevent_reg) ∉ w.regs := by
    intro hmem
    exact hfresh (hwf.1 _ hmem)
  by_cases h1 : kqueue_rv < 0
  · simp [setup_socket_activation, World.fd_created, h1]
  · by_cases h2 : kevent_rv < 0
    · simp [setup_socket_activation, World.fd_created, h1, h2]
    · have h1' : 0 ≤ kqueue_rv := not_lt.mp h1
      simp [setup_socket_activation, World.fd_created, World.kevent_added, h1, h2, hnot]
      exact h1'

/-- Witness for C7: with both calls succeeding, on primary queue 3 and with
`kqueue` returning 4, the function returns and the one registration is there. -/
theorem setup_aborts_iff_queue_failure_witness :
    (⟨3, 4, [4, 3], [⟨3, 4, EVFILT_READ⟩]⟩ : World).regs
        = ⟨3, 4, EVFILT_READ⟩ :: (⟨0, 0, [3], []⟩ : World).regs
    ∧ (⟨3, 4, EVFILT_READ⟩ : kevent_reg) ∉ (⟨0, 0, [3], []⟩ : World).regs
    ∧ (⟨3, 4, [4, 3], [⟨3, 4, EVFILT_READ⟩]⟩ : World).parent_kqfd = 3
    ∧ (⟨3, 4, [4, 3], [⟨3, 4, EVFILT_READ⟩]⟩ : World).socket_kqfd = 4
    ∧ (0 : Int) ≤ 4 :=
  (setup_aborts_iff_queue_failure 4 0 3 ⟨0, 0, [3], []⟩ (by decide) (by decide)).2
    ⟨3, 4, [4, 3], [⟨3, 4, EVFILT_READ⟩]⟩
    [Syscall.kqueue, Syscall.kevent_add 3 4 EVFILT_READ EV_ADD] (by decide)

/-! ### `getConfigDir` -/

/-- C9: `getConfigDir` gives "/etc/relaunchd" for user id 0 whatever the
environment; for another user it gives `$XDG_CONFIG_HOME/relaunchd` when that
variable is set, whatever `HOME` is, else `$HOME/.local/config/relaunchd` when
`HOME` is set; and it throws exactly when the user id is not 0 and neither
variable is set. -/
theorem getConfigDir_cases (uid : Nat) (getenv getenv2 : String → Option String) :
    getConfigDir 0 getenv = Except.ok "/etc/relaunchd"
    ∧ (∀ x, uid ≠ 0 → getenv "XDG_CONFIG_HOME" = some x →
        getConfigDir uid getenv = Except.ok (x ++ "/relaunchd"))
    ∧ (∀ x, uid ≠ 0 → getenv "XDG_CONFIG_HOME" = some x →
        getenv2 "XDG_CONFIG_HOME" = some x →
        getConfigDir uid getenv = getConfigDir uid getenv2)
    ∧ (∀ h, uid ≠ 0 → getenv "XDG_CONFIG_HOME" = none → getenv "HOME" = some h →
        getConfigDir uid getenv = Except.ok (h ++ "/.local/config/relaunchd"))
    ∧ ((∃ msg, getConfigDir uid getenv = Except.error msg) ↔
        (uid ≠ 0 ∧ getenv "XDG_CONFIG_HOME" = none ∧ getenv "HOME" = none)) := by
  refine ⟨by simp [getConfigDir], ?_, ?_, ?_, ?_⟩
  · intro x hu hx
    simp [getConfigDir, hu, hx]
  · intro x hu hx hx2
    simp [getConfigDir, hu, hx, hx2]
  · intro h hu hx hh
    simp only [getConfigDir, hu, hx, hh, if_false]
    rw [String.append_assoc]
    rfl
  · by_cases hu : uid = 0
    · simp [getConfigDir, hu]
    · cases hx : getenv "XDG_CONFIG_HOME" with
      | some x => simp [getConfigDir, hu, hx]
      | none =>
        cases hh : getenv "HOME" with
        | some h => simp [getConfigDir, hu, hx, hh]
        | none => simp [getConfigDir, hu, hx, hh]

/-- Witness for C9: user 1000 with only `HOME` set. -/
theorem getConfigDir_cases_witness :
    getConfigDir 1000 (fun v => if v = "HOME" then some "/home/u" else none)
      = Except.ok ("/home/u" ++ "/.local/config/relaunchd") :=
  (getConfigDir_cases 1000 (fun v => if v = "HOME" then some "/home/u" else none)
    (fun _ => none)).2.2.2.1 "/home/u" (by decide) (by decide) (by decide)

/-! ### Failure and success of `job_manifest_socket_open` -/

theorem fd_created_closed (w : World) (sd : Int) (hwf : w.wf) (hfresh : sd ∉ w.open_fds)
    (hsd : 0 ≤ sd) : (w.fd_created sd).fd_closed sd = w := by
  have h1 : ¬ sd < 0 := not_lt.mpr hsd
  have h2 : w.open_fds.filter (fun x => decide (x ≠ sd)) = w.open_fds := by
    rw [List.filter_eq_self]
    intro a ha
    have : a ≠ sd := fun h => hfresh (h ▸ ha)
    simpa using this
  have h3 : w.regs.filter (fun r => decide (r.ident ≠ sd)) = w.regs := by
    rw [List.filter_eq_self]
    intro r hr
    have : r.ident ≠ sd := fun h => hfresh (h ▸ hwf.1 r hr)
    simpa using this
  cases w
  simp only [World.fd_created, World.fd_closed, h1, if_false] at *
  simp only [List.filter_cons, ne_eq, not_true_eq_false, decide_False, Bool.false_eq_true,
    if_false]
  rw [World.mk.injEq]
  exact ⟨rfl, rfl, h2, h3⟩

theorem open_failure (le : Bool) (o : OpenOutcome) (jms : job_manifest_socket) (w : World)
    (hs : open_unsupported jms = false) (hwf : w.wf) (hfresh : o.socket_rv ∉ w.open_fds)
    (hfail : o.socket_rv < 0 ∨ o.bind_rv < 0 ∨ o.listen_rv < 0 ∨ o.kevent_rv < 0) :
    (job_manifest_socket_open le o jms w).rv = -1
    ∧ (job_manifest_socket_open le o jms w).jms = jms
    ∧ (job_manifest_socket_open le o jms w).world = w
    ∧ (0 ≤ o.socket_rv →
        (job_manifest_socket_open le o jms w).calls.getLast?
          = some (Syscall.close o.socket_rv)) := by
  simp only [job_manifest_socket_open, open_err_out, hs, Bool.false_eq_true, if_false]
  by_cases h1 : o.socket_rv < 0
  · have h1' : ¬ o.socket_rv ≥ 0 := by omega
    simp [h1, h1', World.fd_created]
  · have h1' : o.socket_rv ≥ 0 := by omega
    have hcl := fd_created_closed w o.socket_rv hwf hfresh h1'
    by_cases h2 : o.bind_rv < 0
    · simp [h1, h1', h2, hcl]
    · by_cases h3 : o.listen_rv < 0
      · simp [h1, h1', h2, h3, hcl]
      · have h4 : o.kevent_rv < 0 := by
          rcases hfail with h | h | h | h
          · exact absurd h h1
          · exact absurd h h2
          · exact absurd h h3
          · exact h
        simp [h1, h1', h2, h3, h4, World.kevent_added, hcl]

theorem open_success (le : Bool) (o : OpenOutcome) (jms : job_manifest_socket) (w : World)
    (hs : open_unsupported jms = false)
    (hok : ¬ (o.socket_rv < 0 ∨ o.bind_rv < 0 ∨ o.listen_rv < 0 ∨ o.kevent_rv < 0)) :
    (job_manifest_socket_open le o jms w).rv = 0
    ∧ (job_manifest_socket_open le o jms w).jms = { jms with sd := o.socket_rv }
    ∧ (job_manifest_socket_open le o jms w).world
        = (w.fd_created o.socket_rv).kevent_added o.kevent_rv
            ⟨w.socket_kqfd, o.socket_rv, EVFILT_READ⟩ := by
  push_neg at hok
  obtain ⟨h1, h2, h3, h4⟩ := hok
  simp [job_manifest_socket_open, hs, not_lt.mpr h1, not_lt.mpr h2, not_lt.mpr h3,
    not_lt.mpr h4]

/-- C4: for a supported descriptor (stream, passive, INET, no node name), when
`socket`, `bind`, `listen` or the registering `kevent` fails,
`job_manifest_socket_open` returns -1 to its caller, the descriptor is in
every field as before, and the world is as before: the socket the call
created, if any, was closed as the last system call, so that it is neither
open nor registered. -/
theorem open_failure_leaves_no_trace (le : Bool) (o : OpenOutcome)
    (jms : job_manifest_socket) (w : World)
    (hsupported : jms.sock_type = SOCK_STREAM ∧ jms.sock_passive = true
      ∧ jms.sock_family = PF_INET ∧ jms.sock_node_name = none)
    (hwf : w.wf) (hfresh : o.socket_rv ∉ w.open_fds)
    (hfail : o.socket_rv < 0 ∨ o.bind_rv < 0 ∨ o.listen_rv < 0 ∨ o.kevent_rv < 0) :
    (job_manifest_socket_open le o jms w).rv = -1
    ∧ (job_manifest_socket_open le o jms w).jms = jms
    ∧ (job_manifest_socket_open le o jms w).world = w
    ∧ (0 ≤ o.socket_rv →
        (job_manifest_socket_open le o jms w).calls.getLast?
          = some (Syscall.close o.socket_rv))
    ∧ o.socket_rv ∉ (job_manifest_socket_open le o jms w).world.open_fds
    ∧ ¬ (job_manifest_socket_open le o jms w).world.on_activation_queue o.socket_rv := by
  have hs : open_unsupported jms = false := by
    obtain ⟨h1, h2, h3, h4⟩ := hsupported
    simp [open_unsupported, h1, h2, h3, h4]
  obtain ⟨h1, h2, h3, h4⟩ := open_failure le o jms w hs hwf hfresh hfail
  refine ⟨h1, h2, h3, h4, ?_, ?_⟩
  · rw [h3]; exact hfresh
  · rw [h3]
    intro hmem
    exact hfresh (hwf.1 _ hmem)

/-- Witness for C4: `listen` fails on the socket 5 the call created. -/
theorem open_failure_leaves_no_trace_witness :
    (job_manifest_socket_open true ⟨5, 0, -1, 0⟩
        ⟨none, -1, 80, SOCK_STREAM, true, PF_INET, none, none, none, none, none⟩
        ⟨3, 4, [3, 4], [⟨3, 4, EVFILT_READ⟩]⟩).world
      = ⟨3, 4, [3, 4], [⟨3, 4, EVFILT_READ⟩]⟩ :=
  (open_failure_leaves_no_trace true ⟨5, 0, -1, 0⟩
    ⟨none, -1, 80, SOCK_STREAM, true, PF_INET, none, none, none, none, none⟩
    ⟨3, 4, [3, 4], [⟨3, 4, EVFILT_READ⟩]⟩
    (by decide) (by decide) (by decide) (by decide)).2.2.1

/-! ### The descriptor field `sd` and the activation queue -/

theorem open_rv_cases (le : Bool) (o : OpenOutcome) (jms : job_manifest_socket) (w : World)
    (hwf : w.wf) (hfresh : o.socket_rv ∉ w.open_fds) :
    ((job_manifest_socket_open le o jms w).rv = -1
        ∧ (job_manifest_socket_open le o jms w).jms = jms
        ∧ (job_manifest_socket_open le o jms w).world = w)
    ∨ ((job_manifest_socket_open le o jms w).rv = 0
        ∧ 0 ≤ o.socket_rv
        ∧ (job_manifest_socket_open le o jms w).jms = { jms with sd := o.socket_rv }
        ∧ (job_manifest_socket_open le o jms w).world
            = (w.fd_created o.socket_rv).kevent_added o.kevent_rv
                ⟨w.socket_kqfd, o.socket_rv, EVFILT_READ⟩
        ∧ 0 ≤ o.kevent_rv) := by
  cases hs : open_unsupported jms with
  | true =>
    left
    simp [job_manifest_socket_open, hs]
  | false =>
    by_cases hfail : o.socket_rv < 0 ∨ o.bind_rv < 0 ∨ o.listen_rv < 0 ∨ o.kevent_rv < 0
    · left
      obtain ⟨h1, h2, h3, _⟩ := open_failure le o jms w hs hwf hfresh hfail
      exact ⟨h1, h2, h3⟩
    · right
      obtain ⟨h1, h2, h3⟩ := open_success le o jms w hs hfail
      push_neg at hfail
      exact ⟨h1, hfail.1, h2, h3, hfail.2.2.2⟩

theorem open_keeps_sd_inv (le : Bool) (o : OpenOutcome) (jms : job_manifest_socket)
    (w : World) (hinv : sd_inv jms w) (hfresh : o.socket_rv ∉ w.open_fds) :
    sd_inv (job_manifest_socket_open le o jms w).jms
      (job_manifest_socket_open le o jms w).world := by
  rcases open_rv_cases le o jms w hinv.1 hfresh with ⟨_, hj, hw⟩ | ⟨_, hsd, hj, hw, hk⟩
  · rw [hj, hw]; exact hinv
  · rw [hj, hw]
    have h1 : ¬ o.socket_rv < 0 := not_lt.mpr hsd
    have h2 : ¬ o.kevent_rv < 0 := not_lt.mpr hk
    obtain ⟨⟨hreg, hfd⟩, _⟩ := hinv
    by_cases hmem : (⟨w.socket_kqfd, o.socket_rv, EVFILT_READ⟩ : kevent_reg) ∈ w.regs
    · exact absurd (hreg _ hmem) hfresh
    · refine ⟨⟨?_, ?_⟩, ?_⟩
      · intro r hr
        simp [World.fd_created, World.kevent_added, h1, h2, hmem] at hr ⊢
        rcases hr with hr | hr
        · left; rw [hr]
        · right; exact hreg r hr
      · intro fd hfdm
        simp [World.fd_created, World.kevent_added, h1, h2, hmem] at hfdm
        rcases hfdm with hfdm | hfdm
        · rw [hfdm]; exact hsd
        · exact hfd fd hfdm
      · intro _
        simp [World.on_activation_queue, World.fd_created, World.kevent_added, h1, h2, hmem]

theorem open_all_sd (le : Bool) (os : List OpenOutcome) :
    ∀ (jms : job_manifest_socket) (w : World), sd_inv jms w →
      outcomes_fresh le os jms w = true →
      sd_inv (open_all le os jms w).2.1 (open_all le os jms w).2.2
      ∧ ((∀ rv ∈ (open_all le os jms w).1, rv = -1) → (open_all le os jms w).2.1 = jms)
      ∧ ((∃ rv ∈ (open_all le os jms w).1, rv ≠ -1) → 0 ≤ (open_all le os jms w).2.1.sd)
      ∧ (0 ≤ jms.sd → 0 ≤ (open_all le os jms w).2.1.sd) := by
  induction os with
  | nil =>
    intro jms w hinv _
    simp [open_all, hinv]
  | cons o os ih =>
    intro jms w hinv hfresh
    simp only [outcomes_fresh, Bool.and_eq_true, decide_eq_true_eq] at hfresh
    obtain ⟨hf1, hf2⟩ := hfresh
    have hstep := open_keeps_sd_inv le o jms w hinv hf1
    obtain ⟨ia, ib, ic, id⟩ := ih _ _ hstep hf2
    have hcases := open_rv_cases le o jms w hinv.1 hf1
    simp only [open_all]
    refine ⟨ia, ?_, ?_, ?_⟩
    · intro hall
      have h0 : (job_manifest_socket_open le o jms w).rv = -1 :=
        hall _ (List.mem_cons_self _ _)
      have hrest := ib (fun rv hrv => hall rv (List.mem_cons_of_mem _ hrv))
      rcases hcases with ⟨_, hj, _⟩ | ⟨h, _⟩
      · rw [hrest, hj]
      · rw [h] at h0; omega
    · rintro ⟨rv, hrv, hne⟩
      rcases List.mem_cons.mp hrv with h | h
      · rcases hcases with ⟨h1, _, _⟩ | ⟨_, hsd, hj, _⟩
        · rw [h, h1] at hne; exact absurd rfl hne
        · apply id
          rw [hj]; exact hsd
      · exact ic ⟨rv, h, hne⟩
    · intro hsd
      apply id
      rcases hcases with ⟨_, hj, _⟩ | ⟨_, hsd2, hj, _⟩
      · rw [hj]; exact hsd
      · rw [hj]; exact hsd2

/-- C5: start from the descriptor made by `job_manifest_socket_new` in a
consistent world and run any sequence of `job_manifest_socket_open` calls
whose system calls succeed or fail at will (the kernel handing out only
descriptors that are not open). Then `sd` is -1 at the start, `sd` is
non-negative exactly when it is registered on the activation queue, and `sd`
is -1 exactly when every call so far returned -1. -/
theorem sd_nonneg_iff_registered (le : Bool) (os : List OpenOutcome)
    (jms : job_manifest_socket) (w : World)
    (hnew : job_manifest_socket_new true = some jms) (hwf : w.wf)
    (hfresh : outcomes_fresh le os jms w = true) :
    jms.sd = -1
    ∧ (0 ≤ (open_all le os jms w).2.1.sd ↔
        (open_all le os jms w).2.2.on_activation_queue (open_all le os jms w).2.1.sd)
    ∧ ((open_all le os jms w).2.1.sd = -1 ↔ ∀ rv ∈ (open_all le os jms w).1, rv = -1) := by
  have hsd : jms.sd = -1 := by
    simp [job_manifest_socket_new] at hnew
    rw [← hnew]
  have hinv : sd_inv jms w := ⟨hwf, fun h => by rw [hsd] at h; omega⟩
  obtain ⟨⟨hwf2, hreg⟩, hb, hc, _⟩ := open_all_sd le os jms w hinv hfresh
  refine ⟨hsd, ⟨hreg, ?_⟩, ?_, ?_⟩
  · intro hq
    exact hwf2.2 _ (hwf2.1 _ hq)
  · intro h
    by_contra hne
    push_neg at hne
    have := hc hne
    omega
  · intro hall
    rw [hb hall]; exact hsd

/-- Witness for C5: a failed open (bind fails), then a successful one that
creates socket 5. -/
theorem sd_nonneg_iff_registered_witness :
    (0 ≤ (open_all true [⟨5, -1, 0, 0⟩, ⟨5, 0, 0, 0⟩]
            ⟨none, -1, 0, SOCK_STREAM, true, PF_INET, none, none, none, none, none⟩
            ⟨3, 4, [3, 4], [⟨3, 4, EVFILT_READ⟩]⟩).2.1.sd ↔
      (open_all true [⟨5, -1, 0, 0⟩, ⟨5, 0, 0, 0⟩]
            ⟨none, -1, 0, SOCK_STREAM, true, PF_INET, none, none, none, none, none⟩
            ⟨3, 4, [3, 4], [⟨3, 4, EVFILT_READ⟩]⟩).2.2.on_activation_queue
        (open_all true [⟨5, -1, 0, 0⟩, ⟨5, 0, 0, 0⟩]
            ⟨none, -1, 0, SOCK_STREAM, true, PF_INET, none, none, none, none, none⟩
            ⟨3, 4, [3, 4], [⟨3, 4, EVFILT_READ⟩]⟩).2.1.sd) :=
  (sd_nonneg_iff_registered true [⟨5, -1, 0, 0⟩, ⟨5, 0, 0, 0⟩]
    ⟨none, -1, 0, SOCK_STREAM, true, PF_INET, none, none, none, none, none⟩
    ⟨3, 4, [3, 4], [⟨3, 4, EVFILT_READ⟩]⟩ (by decide) (by decide) (by decide)).2.1

/-! ### `job_manifest_socket_get_port` -/

theorem bswap16_bswap16 (x : Nat) (h : x < 65536) : bswap16 (bswap16 x) = x := by
  unfold bswap16
  have h1 : x / 256 < 256 := by omega
  have h2 : x / 256 % 256 = x / 256 := Nat.mod_eq_of_lt h1
  have h3 : (x % 256 * 256 + x / 256) % 256 = x / 256 := by
    rw [Nat.add_comm, Nat.add_mul_mod_self_right]
    exact Nat.mod_eq_of_lt h1
  have h4 : (x % 256 * 256 + x / 256) / 256 = x % 256 := by
    rw [Nat.add_comm, Nat.add_mul_div_right _ _ (by norm_num : 0 < 256)]
    rw [Nat.div_eq_of_lt h1, Nat.zero_add]
  have h5 : x % 256 % 256 = x % 256 := Nat.mod_mod _ _
  rw [h2, h3, h4, h5]
  omega

theorem bswap16_lt (x : Nat) : bswap16 x < 65536 := by
  unfold bswap16
  omega

theorem ntohs_htons (le : Bool) (x : Int) :
    ((ntohs le (htons le x) : Nat) : Int) = x % 65536 := by
  have h0 : (0 : Int) ≤ x % 65536 := Int.emod_nonneg _ (by norm_num)
  have h1 : x % 65536 < 65536 := Int.emod_lt_of_pos _ (by norm_num)
  have h2 : (x % 65536).toNat < 65536 := by omega
  cases le with
  | false =>
    simp only [ntohs, htons, Bool.false_eq_true, if_false]
    have : (((x % 65536).toNat : Nat) : Int) % 65536 = x % 65536 := by omega
    rw [this]; omega
  | true =>
    simp only [ntohs, htons, if_true]
    have hb := bswap16_lt (x % 65536).toNat
    have : ((bswap16 (x % 65536).toNat : Nat) : Int) % 65536
        = (bswap16 (x % 65536).toNat : Nat) := by omega
    rw [this, Int.toNat_ofNat, bswap16_bswap16 _ h2]
    omega

theorem skip_space_append (ws s : List Char) (h : ∀ c ∈ ws, isspace c = true) :
    skip_space (ws ++ s) = skip_space s := by
  induction ws with
  | nil => rfl
  | cons c cs ih =>
    have hc : isspace c = true := h c (List.mem_cons_self _ _)
    simp only [List.cons_append, skip_space, hc, if_true]
    exact ih (fun d hd => h d (List.mem_cons_of_mem _ hd))

theorem skip_space_eq_dropWhile (s : List Char) : skip_space s = s.dropWhile isspace := by
  induction s with
  | nil => rfl
  | cons c cs ih =>
    by_cases hc : isspace c = true
    · simp [skip_space, List.dropWhile, hc, ih]
    · simp [skip_space, List.dropWhile, hc]

theorem read_digits_append (ds rest : List Char) (acc : Nat)
    (hd : ∀ c ∈ ds, isdigit c = true) (hr : ∀ c ∈ rest.head?, isdigit c = false) :
    read_digits (ds ++ rest) acc = ds.foldl (fun a c => a * 10 + (c.toNat - 48)) acc := by
  induction ds generalizing acc with
  | nil =>
    cases rest with
    | nil => rfl
    | cons c cs =>
      have : isdigit c = false := hr c (by simp)
      simp [read_digits, this]
  | cons d ds ih =>
    have hdd : isdigit d = true := hd d (List.mem_cons_self _ _)
    simp only [List.cons_append, read_digits, hdd, if_true, List.foldl_cons]
    exact ih _ (fun c hc => hd c (List.mem_cons_of_mem _ hc))

theorem read_digits_eq_takeWhile (s : List Char) (acc : Nat) :
    read_digits s acc
      = (s.takeWhile isdigit).foldl (fun a c => a * 10 + (c.toNat - 48)) acc := by
  induction s generalizing acc with
  | nil => rfl
  | cons c cs ih =>
    by_cases hc : isdigit c = true
    · simp [read_digits, List.takeWhile, hc, ih]
    · simp [read_digits, List.takeWhile, hc]

theorem isdigit_not_space (c : Char) (h : isdigit c = true) : isspace c = false := by
  simp only [isdigit, isspace, Bool.and_eq_true, decide_eq_true_eq, Bool.or_eq_false_iff,
    decide_eq_false_iff_not, Bool.and_eq_false_iff] at *
  omega

theorem isdigit_not_sign (c : Char) (h : isdigit c = true) : c.toNat ≠ 45 ∧ c.toNat ≠ 43 := by
  simp only [isdigit, Bool.and_eq_true, decide_eq_true_eq] at h
  omega

theorem skip_space_of_head (c : Char) (cs : List Char) (h : isspace c = false) :
    skip_space (c :: cs) = c :: cs := by
  simp [skip_space, h]

theorem char_of_toNat (c : Char) (k : Nat) (h : c.toNat = k) : c = Char.ofNat k := by
  rw [← h, Char.ofNat_toNat]

theorem scan_digits_value (d : Char) (ds rest : List Char)
    (hd : ∀ c ∈ d :: ds, isdigit c = true) (hr : ∀ c ∈ rest.head?, isdigit c = false) :
    read_digits (d :: (ds ++ rest)) 0 = decimal_value (d :: ds) := by
  have := read_digits_append (d :: ds) rest 0 hd hr
  simpa [decimal_value] using this

theorem scan_int_of_begins (s : List Char) (n : Int) (h : begins_with_integer s n) :
    scan_int s = ScanResult.value n := by
  obtain ⟨ws, sg, ds, rest, hs, hws, hsg, hne, hds, hrest, hn⟩ := h
  cases ds with
  | nil => exact absurd rfl hne
  | cons d ds =>
    have hd : isdigit d = true := hds d (List.mem_cons_self _ _)
    have hval := scan_digits_value d ds rest hds hrest
    have hs2 : s = ws ++ (sg ++ (d :: (ds ++ rest))) := by
      rw [hs]; simp [List.append_assoc]
    rcases hsg with h0 | hp | hm
    · subst h0
      have hsk : skip_space s = d :: (ds ++ rest) := by
        rw [hs2, skip_space_append _ _ hws]
        exact skip_space_of_head d _ (isdigit_not_space d hd)
      have hsign := isdigit_not_sign d hd
      simp only [scan_int, hsk, hsign.1, hsign.2, hd, if_true, if_false, hval]
      rw [hn]; simp
    · subst hp
      have hsk : skip_space s = '+' :: d :: (ds ++ rest) := by
        rw [hs2, skip_space_append _ _ hws]
        exact skip_space_of_head _ _ (by decide)
      have h45 : ¬ ('+' : Char).toNat = 45 := by decide
      have h43 : ('+' : Char).toNat = 43 := by decide
      simp only [scan_int, hsk, h45, h43, hd, if_true, if_false, hval]
      rw [hn]; simp
    · subst hm
      have hsk : skip_space s = '-' :: d :: (ds ++ rest) := by
        rw [hs2, skip_space_append _ _ hws]
        exact skip_space_of_head _ _ (by decide)
      have h45 : ('-' : Char).toNat = 45 := by decide
      simp only [scan_int, hsk, h45, hd, if_true, hval]
      rw [hn]; simp

theorem digits_split (d : Char) (cs : List Char) (hd : isdigit d = true) :
    ∃ ds rest, d :: cs = ds ++ rest ∧ ds ≠ [] ∧ (∀ c ∈ ds, isdigit c = true)
      ∧ (∀ c ∈ rest.head?, isdigit c = false)
      ∧ read_digits (d :: cs) 0 = decimal_value ds := by
  refine ⟨(d :: cs).takeWhile isdigit, (d :: cs).dropWhile isdigit,
    (List.takeWhile_append_dropWhile _ _).symm, ?_, ?_, ?_, ?_⟩
  · simp [List.takeWhile, hd]
  · intro c hc
    exact List.mem_takeWhile_imp hc
  · intro c hc
    have := List.head?_dropWhile_not isdigit (d :: cs)
    rw [Option.mem_def] at hc
    rw [hc] at this
    simpa using this
  · rw [read_digits_eq_takeWhile]
    rfl

theorem begins_of_scan_int (s : List Char) (n : Int) (h : scan_int s = ScanResult.value n) :
    begins_with_integer s n := by
  have hsplit : s = s.takeWhile isspace ++ s.dropWhile isspace :=
    (List.takeWhile_append_dropWhile _ _).symm
  have hws : ∀ c ∈ s.takeWhile isspace, isspace c = true :=
    fun c hc => List.mem_takeWhile_imp hc
  unfold scan_int at h
  rw [skip_space_eq_dropWhile] at h
  cases ht : s.dropWhile isspace with
  | nil => simp [ht] at h
  | cons c cs =>
    rw [ht] at h hsplit
    simp only at h
    by_cases h45 : c.toNat = 45
    · have hc : c = '-' := char_of_toNat c 45 h45
      simp only [h45, if_true] at h
      cases cs with
      | nil => simp at h
      | cons d ds0 =>
        simp only at h
        by_cases hd : isdigit d = true
        · simp only [hd, if_true, ScanResult.value.injEq] at h
          obtain ⟨ds, rest, hsp, hne, hds, hrest, hval⟩ := digits_split d ds0 hd
          refine ⟨s.takeWhile isspace, ['-'], ds, rest, ?_, hws, Or.inr (Or.inr rfl),
            hne, hds, hrest, ?_⟩
          · rw [List.append_assoc, List.append_assoc, ← hsp, ← hc]
            simpa using hsplit
          · rw [← h, hval]; simp
        · simp [hd] at h
    · by_cases h43 : c.toNat = 43
      · have hc : c = '+' := char_of_toNat c 43 h43
        rw [if_neg h45, if_pos h43] at h
        cases cs with
        | nil => simp at h
        | cons d ds0 =>
          simp only at h
          by_cases hd : isdigit d = true
          · simp only [hd, if_true, ScanResult.value.injEq] at h
            obtain ⟨ds, rest, hsp, hne, hds, hrest, hval⟩ := digits_split d ds0 hd
            refine ⟨s.takeWhile isspace, ['+'], ds, rest, ?_, hws, Or.inr (Or.inl rfl),
              hne, hds, hrest, ?_⟩
            · rw [List.append_assoc, List.append_assoc, ← hsp, ← hc]
              simpa using hsplit
            · rw [← h, hval]; simp
          · simp [hd] at h
      · rw [if_neg h45, if_neg h43] at h
        by_cases hd : isdigit c = true
        · simp only [hd, if_true, ScanResult.value.injEq] at h
          obtain ⟨ds, rest, hsp, hne, hds, hrest, hval⟩ := digits_split c cs hd
          refine ⟨s.takeWhile isspace, [], ds, rest, ?_, hws, Or.inl rfl,
            hne, hds, hrest, ?_⟩
          · rw [List.append_assoc, List.append_assoc, ← hsp]
            simpa using hsplit
          · rw [← h, hval]; simp
        · simp [hd] at h

theorem scan_int_iff_begins (s : List Char) (n : Int) :
    scan_int s = ScanResult.value n ↔ begins_with_integer s n :=
  ⟨begins_of_scan_int s n, scan_int_of_begins s n⟩

theorem store_int_of_int (n : Int) (h1 : INT_MIN ≤ n) (h2 : n ≤ INT_MAX) : store_int n = n := by
  unfold INT_MIN at h1
  unfold INT_MAX at h2
  unfold store_int
  have hmin : min n 9223372036854775807 = n := min_eq_left (by omega)
  have hmax : max (-9223372036854775808) n = n := max_eq_right (by omega)
  simp only [hmin, hmax]
  omega

theorem store_int_range (n : Int) : INT_MIN ≤ store_int n ∧ store_int n ≤ INT_MAX := by
  unfold INT_MIN INT_MAX store_int
  simp only
  generalize max (-9223372036854775808 : Int) (min n 9223372036854775807) = l
  constructor <;> omega

/-- C6, as amended: with the service name set, when the services database
knows the name `job_manifest_socket_get_port` stores `ntohs` of the entry's
port (the port in host byte order) and returns 0, whatever the name looks
like; otherwise, when the name begins, after optional white space, with an
optionally signed decimal integer `n`, it returns 0 and stores a value of the
C `int` range, which is `n` when `n` is in that range and is not `n` when it
is not; otherwise, that is when the name begins with no optionally signed
decimal integer at all, it returns -1 and the descriptor, its port included,
is unchanged. -/
theorem get_port_resolves (le : Bool) (getservbyname : String → Option servent)
    (jms : job_manifest_socket) (name : String)
    (hname : jms.sock_service_name = some name) :
    (∀ se, getservbyname name = some se →
        job_manifest_socket_get_port le getservbyname jms
          = some (0, { jms with port := ntohs le se.s_port }))
    ∧ (∀ p : Nat, p < 65536 → getservbyname name = some ⟨htons le p⟩ →
        job_manifest_socket_get_port le getservbyname jms = some (0, { jms with port := p }))
    ∧ (∀ n : Int, getservbyname name = none → begins_with_integer name.toList n →
        INT_MIN ≤ n → n ≤ INT_MAX →
        job_manifest_socket_get_port le getservbyname jms = some (0, { jms with port := n }))
    ∧ (∀ n : Int, getservbyname name = none → begins_with_integer name.toList n →
        ∃ p : Int, job_manifest_socket_get_port le getservbyname jms
            = some (0, { jms with port := p })
          ∧ INT_MIN ≤ p ∧ p ≤ INT_MAX
          ∧ (¬ (INT_MIN ≤ n ∧ n ≤ INT_MAX) → p ≠ n))
    ∧ (getservbyname name = none → (¬ ∃ n, begins_with_integer name.toList n) →
        job_manifest_socket_get_port le getservbyname jms = some (-1, jms))
    ∧ (getservbyname name = none →
        ((∃ j, job_manifest_socket_get_port le getservbyname jms = some (-1, j))
          ↔ ¬ ∃ n, begins_with_integer name.toList n)) := by
  have hfit : ∀ n : Int, getservbyname name = none → begins_with_integer name.toList n →
      INT_MIN ≤ n → n ≤ INT_MAX →
      job_manifest_socket_get_port le getservbyname jms
        = some (0, { jms with port := n }) := by
    intro n hdb hb h1 h2
    have hscan := scan_int_of_begins _ _ hb
    have hss : sscanf_d name.toList jms.port = (1, n) := by
      simp only [sscanf_d, hscan, store_int_of_int n h1 h2]
    simp only [job_manifest_socket_get_port, hname, hdb, hss]
    simp
  have hany : ∀ n : Int, getservbyname name = none → begins_with_integer name.toList n →
      job_manifest_socket_get_port le getservbyname jms
        = some (0, { jms with port := store_int n }) := by
    intro n hdb hb
    have hscan := scan_int_of_begins _ _ hb
    have hss : sscanf_d name.toList jms.port = (1, store_int n) := by
      simp only [sscanf_d, hscan]
    simp only [job_manifest_socket_get_port, hname, hdb, hss]
    simp
  have hnone : getservbyname name = none → (¬ ∃ n, begins_with_integer name.toList n) →
      job_manifest_socket_get_port le getservbyname jms = some (-1, jms) := by
    intro hdb hnone
    have hscan : ∀ n, scan_int name.toList ≠ ScanResult.value n :=
      fun n h => hnone ⟨n, begins_of_scan_int _ _ h⟩
    have hss : sscanf_d name.toList jms.port = (-1, jms.port)
        ∨ sscanf_d name.toList jms.port = (0, jms.port) := by
      cases hr : scan_int name.toList with
      | eof => left; simp only [sscanf_d, hr]
      | mismatch => right; simp only [sscanf_d, hr]
      | value n => exact absurd hr (hscan n)
    rcases hss with hss | hss <;>
      simp only [job_manifest_socket_get_port, hname, hdb, hss] <;> simp <;> rw [← hname]
  refine ⟨?_, ?_, hfit, ?_, hnone, ?_⟩
  · intro se hse
    simp [job_manifest_socket_get_port, hname, hse]
  · intro p hp hse
    have h := ntohs_htons le (p : Int)
    have hmod : (p : Int) % 65536 = p := by omega
    simp [job_manifest_socket_get_port, hname, hse, h, hmod]
  · intro n hdb hb
    obtain ⟨hr1, hr2⟩ := store_int_range n
    refine ⟨store_int n, hany n hdb hb, hr1, hr2, ?_⟩
    intro hout heq
    rw [heq] at hr1 hr2
    exact hout ⟨hr1, hr2⟩
  · intro hdb
    constructor
    · rintro ⟨j, hj⟩ ⟨n, hb⟩
      rw [hany n hdb hb] at hj
      simp at hj
    · intro h
      exact ⟨jms, hnone hdb h⟩

/-- Witness for C6: the name "8080x" is unknown to the database and begins with
the integer 8080. -/
theorem get_port_resolves_witness :
    job_manifest_socket_get_port true (fun _ => none)
        ⟨none, -1, 0, SOCK_STREAM, true, PF_INET, none, some "8080x", none, none, none⟩
      = some (0, ⟨none, -1, 8080, SOCK_STREAM, true, PF_INET, none, some "8080x",
          none, none, none⟩) :=
  (get_port_resolves true (fun _ => none)
    ⟨none, -1, 0, SOCK_STREAM, true, PF_INET, none, some "8080x", none, none, none⟩
    "8080x" rfl).2.2.1 8080 rfl
    ⟨[], [], ['8', '0', '8', '0'], ['x'], by decide, by decide, by decide, by decide,
      by decide, by decide, by decide⟩
    (by decide) (by decide)

/-- Counterexample to C6 as stated: the name "2147483648" is unknown to the
database and is the decimal integer 2147483648, yet the call returns 0 with a
stored port that is not 2147483648 (a C `int` cannot hold it). -/
theorem get_port_overflow_counterexample :
    begins_with_integer "2147483648".toList 2147483648
    ∧ job_manifest_socket_get_port true (fun _ => none)
        ⟨none, -1, 0, SOCK_STREAM, true, PF_INET, none, some "2147483648", none, none, none⟩
      = some (0, ⟨none, -1, -2147483648, SOCK_STREAM, true, PF_INET, none,
          some "2147483648", none, none, none⟩)
    ∧ ¬ (job_manifest_socket_get_port true (fun _ => none)
        ⟨none, -1, 0, SOCK_STREAM, true, PF_INET, none, some "2147483648", none, none, none⟩
      = some (0, ⟨none, -1, 2147483648, SOCK_STREAM, true, PF_INET, none,
          some "2147483648", none, none, none⟩)) :=
  ⟨⟨[], [], "2147483648".toList, [], by decide, by decide, by decide, by decide,
      by decide, by decide, by decide⟩, by decide, by decide⟩

/-- C10: the service name "70000" is unknown to the database;
`job_manifest_socket_get_port` returns 0 and stores 70000, which is not in
0..65535, and the following `job_manifest_socket_open` passes to `bind` the
network-order port field of TCP port 4464, not 70000. -/
theorem open_binds_truncated_port :
    job_manifest_socket_get_port true (fun _ => none)
        ⟨none, -1, 0, SOCK_STREAM, true, PF_INET, none, some "70000", none, none, none⟩
      = some (0, ⟨none, -1, 70000, SOCK_STREAM, true, PF_INET, none, some "70000",
          none, none, none⟩)
    ∧ (job_manifest_socket_open true ⟨5, 0, 0, 0⟩
        ⟨none, -1, 70000, SOCK_STREAM, true, PF_INET, none, some "70000", none, none, none⟩
        ⟨3, 4, [3, 4], [⟨3, 4, EVFILT_READ⟩]⟩).calls
      = [Syscall.socket PF_INET SOCK_STREAM 0,
         Syscall.bind 5 PF_INET INADDR_ANY (htons true 4464),
         Syscall.listen 5 500,
         Syscall.kevent_add 4 5 EVFILT_READ EV_ADD]
    ∧ ntohs true (htons true 70000) = 4464
    ∧ ¬ ((0 : Int) ≤ 70000 ∧ (70000 : Int) ≤ 65535) := by
  decide

/-! ### `load` followed by `unload` -/

theorem unload_entry_label (label : String) (e e2 : JobEntry)
    (h : unload_entry label e = some e2) : e2.desc.label = e.desc.label := by
  unfold unload_entry at h
  split_ifs at h with hl
  · cases h; rfl
  · cases hs : e.state <;> simp [hs] at h <;> rw [← h]

end Relaunchd
